import Mathlib

/-!
Verification of the ultimate-geography-interactive-map-json build utilities.

Shallow embedding of:
* `util/convert-wkt-to-svg.ts` — the dev→prod dataset converter
  (`initializeGlobalProjection`, `convertWKTToSVG`, `convertAreaDev`,
  `convertAreasDev`, `convertRegionDev`, `convertWorldData`);
* the high-res stripping script appended to that file;
* the region key-sorting script (`sortedRegions`).

JSON objects are modelled as insertion-ordered association lists with unique
keys.  The third-party libraries `wellknown` (`parse`) and `d3`
(`fitSize`, the path generator) are opaque to the repository code, so they
are taken as function parameters; geometry objects and projections are
abstract types.  JavaScript exceptions are modelled with `Except`; the
falsy checks of the source (`!geojson`, `!svgPath`, optional fields) are
modelled with `Option`, where an empty string is also falsy for `!svgPath`.
-/

namespace UGIM

/-! ### Data model (interfaces of util/convert-wkt-to-svg.ts) -/

structure SourceMetadata where
  layerName : String
  entityIdentifier : String
  remark : Option String
deriving DecidableEq, Repr

structure AreaDev where
  areaWKT : String
  sourceMetadata : SourceMetadata
deriving DecidableEq, Repr

structure AreasDev where
  lowRes : Option AreaDev
  mediumRes : Option AreaDev
  highRes : Option AreaDev
deriving DecidableEq, Repr

inductive ControlType where
  | controlled
  | claimed
deriving DecidableEq, Repr

inductive RefType where
  | regionReference
  | territoryReference
deriving DecidableEq, Repr

structure AreaReference where
  referenceType : RefType
  referenceId : String
deriving DecidableEq, Repr

structure DisputedRegion where
  controlType : ControlType
  areaReference : AreaReference
deriving DecidableEq, Repr

/-- A dev-form region.  `areas` is a required field in the TypeScript type,
but the converter checks `!region.areas` at runtime, so a JSON document may
omit it: we model it as optional. -/
structure RegionDev where
  regionName : String
  areas : Option AreasDev
  disputedRegions : Option (List DisputedRegion)
deriving DecidableEq, Repr

structure WorldDataDev where
  commonTerritories : Option (List (String × String))
  regions : List (String × RegionDev)
deriving DecidableEq, Repr

structure AreaProd where
  areaSVG : String
deriving DecidableEq, Repr

structure AreasProd where
  lowRes : Option AreaProd
  mediumRes : Option AreaProd
  highRes : Option AreaProd
deriving DecidableEq, Repr

structure RegionProd where
  regionName : String
  areas : AreasProd
  disputedRegions : Option (List DisputedRegion)
deriving DecidableEq, Repr

structure WorldDataProd where
  width : Nat
  height : Nat
  commonTerritories : Option (List (String × String))
  regions : List (String × RegionProd)
deriving DecidableEq, Repr

/-- SVG dimensions in 16:9 ratio. -/
def WIDTH : Nat := 1600

def HEIGHT : Nat := 900

/-- The JavaScript exceptions the converter can throw.  The two `throw new
Error(...)` sites carry the offending WKT text truncated to 100 characters;
`typeError` models the runtime TypeError of reading a property of
`undefined`. -/
inductive ConvError where
  | geometryParseError (text : String)
  | emptyPathError (text : String)
  | typeError
deriving DecidableEq, Repr

/-- JavaScript `s.substring(0, n)`: the first `n` characters of `s` (all of
`s` when it is shorter). -/
def jsSubstring (s : String) (n : Nat) : String :=
  ⟨s.data.take n⟩

section Converter

variable {Geo Proj : Type}

/-- The feature-collection loop inside `initializeGlobalProjection`:
collect the parsed high-res geometry of every region that has one, skipping
regions whose `areas`, `high-res` entry or `areaWKT` is missing/falsy and
geometries the parser rejects. -/
def collectHighResFeatures (parse : String → Option Geo) (w : WorldDataDev) :
    List Geo :=
  w.regions.filterMap fun p =>
    match p.2.areas with
    | some a =>
      match a.highRes with
      | some hr => if hr.areaWKT = "" then none else parse hr.areaWKT
      | none => none
    | none => none

/-- Model of `initializeGlobalProjection`: fit a Mercator projection to the collected
features on the fixed `WIDTH × HEIGHT` canvas.  `fitSize` stands for the
opaque `d3.geoMercator().fitSize` call; it is total — the source has no
error path here, even for an empty feature collection. -/
def initializeGlobalProjection (parse : String → Option Geo)
    (fitSize : Nat → Nat → List Geo → Proj) (w : WorldDataDev) : Proj :=
  fitSize WIDTH HEIGHT (collectHighResFeatures parse w)

/-- Model of `convertWKTToSVG`: parse the WKT, throw naming the truncated text when
the parser returns a falsy value, run the global path generator, throw when
the path is falsy (`null` or the empty string), otherwise return it. -/
def convertWKTToSVG (parse : String → Option Geo)
    (pathGen : Geo → Option String) (wkt : String) : Except ConvError String :=
  match parse wkt with
  | none => .error (.geometryParseError (jsSubstring wkt 100))
  | some geojson =>
    match pathGen geojson with
    | none => .error (.emptyPathError (jsSubstring wkt 100))
    | some svgPath =>
      if svgPath = "" then .error (.emptyPathError (jsSubstring wkt 100))
      else .ok svgPath

/-- Model of `convertAreaDev`.  Called with `areasDev['medium-res']`, which may be
`undefined`; reading `.areaWKT` of `undefined` is a TypeError. -/
def convertAreaDev (parse : String → Option Geo)
    (pathGen : Geo → Option String) (areaDev : Option AreaDev) :
    Except ConvError AreaProd :=
  match areaDev with
  | none => .error .typeError
  | some a =>
    match convertWKTToSVG parse pathGen a.areaWKT with
    | .error e => .error e
    | .ok s => .ok { areaSVG := s }

/-- Model of `convertAreasDev`: only the `medium-res` entry is converted (the
`low-res`/`high-res` lines are commented out in the source). -/
def convertAreasDev (parse : String → Option Geo)
    (pathGen : Geo → Option String) (areasDev : Option AreasDev) :
    Except ConvError AreasProd :=
  match areasDev with
  | none => .error .typeError
  | some a =>
    match convertAreaDev parse pathGen a.mediumRes with
    | .error e => .error e
    | .ok ap => .ok { lowRes := none, mediumRes := some ap, highRes := none }

/-- Model of `convertRegionDev`: convert the areas, keep `regionName`, and preserve
`disputedRegions` if present. -/
def convertRegionDev (parse : String → Option Geo)
    (pathGen : Geo → Option String) (r : RegionDev) :
    Except ConvError RegionProd :=
  match convertAreasDev parse pathGen r.areas with
  | .error e => .error e
  | .ok ap =>
    .ok { regionName := r.regionName, areas := ap
          disputedRegions := r.disputedRegions }

/-- The skip test of the region loop in `convertWorldData`:
`regionCode.length > 3 || !regions[regionCode].areas ||
regions[regionCode].areas["medium-res"] === undefined`. -/
def skipRegion (code : String) (r : RegionDev) : Bool :=
  decide (code.length > 3) || r.areas.isNone ||
    (r.areas.bind AreasDev.mediumRes).isNone

/-- The `for (const [regionCode, regionDev] of Object.entries(...))` loop of
`convertWorldData`: skipped regions are dropped (log and continue); a thrown
exception from `convertRegionDev` propagates, aborting the loop. -/
def convertRegionsLoop (parse : String → Option Geo)
    (pathGen : Geo → Option String) :
    List (String × RegionDev) → Except ConvError (List (String × RegionProd))
  | [] => .ok []
  | (code, r) :: rest =>
    if skipRegion code r then convertRegionsLoop parse pathGen rest
    else
      match convertRegionDev parse pathGen r with
      | .error e => .error e
      | .ok rp =>
        match convertRegionsLoop parse pathGen rest with
        | .error e => .error e
        | .ok tail => .ok ((code, rp) :: tail)

/-- Model of `convertWorldData`: build the global projection first, then convert the
regions, stamping `width`/`height` and preserving `commonTerritories` when
present. -/
def convertWorldData (parse : String → Option Geo)
    (fitSize : Nat → Nat → List Geo → Proj)
    (geoPath : Proj → Geo → Option String) (w : WorldDataDev) :
    Except ConvError WorldDataProd :=
  let globalPathGenerator := geoPath (initializeGlobalProjection parse fitSize w)
  match convertRegionsLoop parse globalPathGenerator w.regions with
  | .error e => .error e
  | .ok rs =>
    .ok { width := WIDTH, height := HEIGHT
          commonTerritories := w.commonTerritories, regions := rs }

end Converter

/-! ### The high-res stripping script (second half of the source file) -/

/-- Per-region body of the stripping loop: only when `region.areas` is
present (truthy) and has a `high-res` entry is `areas` replaced by an object
containing just that entry; otherwise the region is left untouched. -/
def stripRegionAreas (r : RegionDev) : RegionDev :=
  match r.areas with
  | some a =>
    match a.highRes with
    | some hr =>
      { r with areas := some { lowRes := none, mediumRes := none
                               highRes := some hr } }
    | none => r
  | none => r

/-- The whole stripping pass over `data.regions`. -/
def stripToHighRes (w : WorldDataDev) : WorldDataDev :=
  { w with regions := w.regions.map fun p => (p.1, stripRegionAreas p.2) }

/-! ### The key-sorting script -/

/-- A `Decidable` witness for `≤` on `String` that compares the underlying
character lists, so that sorting concrete keys reduces inside the kernel
(the library instance goes through byte iterators and does not). -/
def decLeString : DecidableRel (fun a b : String => a ≤ b) := fun a b =>
  decidable_of_iff (¬ b.data < a.data) (not_congr String.lt_iff_toList_lt).symm

/-- JavaScript `Array.prototype.sort()` with the default comparator on
strings: a stable sort by lexicographic order. -/
def sortKeys (ks : List String) : List String :=
  @List.insertionSort String (· ≤ ·) decLeString ks

/-- Model of `sortedRegions` of the sorting script: partition the keys by
`key.length === 3`, sort each group with the default string comparator,
concatenate (3-character group first), and rebuild the object by looking
each key up in the original mapping. -/
def sortedRegions {V : Type} (regions : List (String × V)) :
    List (String × V) :=
  let keys := regions.map Prod.fst
  let threeCharKeys := keys.filter fun k => k.length == 3
  let longerKeys := keys.filter fun k => !(k.length == 3)
  let sortedKeys := sortKeys threeCharKeys ++ sortKeys longerKeys
  sortedKeys.filterMap fun k => (regions.lookup k).map fun v => (k, v)


/-! ### Concrete data used to evaluate the definitions

`Geo := String` (a parsed geometry is just its text) and `Proj := Unit`
instantiate the opaque library types; `parseEx` rejects exactly the text
`"BAD"`, and `geoPathEx` renders a geometry `g` as the path `"P " ++ g`. -/

def parseEx : String → Option String := fun s =>
  if s = "BAD" then none else some s

def fitSizeEx : Nat → Nat → List String → Unit := fun _ _ _ => ()

def geoPathEx : Unit → String → Option String := fun _ g =>
  some (String.append "P " g)

def mdEx : SourceMetadata :=
  { layerName := "L", entityIdentifier := "E", remark := none }

def areaM : AreaDev := { areaWKT := "POLYGON M", sourceMetadata := mdEx }

def areaL : AreaDev := { areaWKT := "POLYGON L", sourceMetadata := mdEx }

def areaH : AreaDev := { areaWKT := "POLYGON H", sourceMetadata := mdEx }

def areaBad : AreaDev := { areaWKT := "BAD", sourceMetadata := mdEx }

def disputedEx : DisputedRegion :=
  { controlType := .claimed
    areaReference := { referenceType := .regionReference
                       referenceId := "xyz" } }

/-- A region with only a medium-res area, convertible by `parseEx`. -/
def regionGood : RegionDev :=
  { regionName := "Good"
    areas := some { lowRes := none, mediumRes := some areaM, highRes := none }
    disputedRegions := none }

/-- A region whose medium-res WKT `parseEx` rejects. -/
def regionBad : RegionDev :=
  { regionName := "Bad"
    areas := some { lowRes := none, mediumRes := some areaBad
                    highRes := none }
    disputedRegions := none }

/-- A region with only a low-res area. -/
def regionLowOnly : RegionDev :=
  { regionName := "Low"
    areas := some { lowRes := some areaL, mediumRes := none, highRes := none }
    disputedRegions := none }

/-- A region with all three resolutions. -/
def regionFull : RegionDev :=
  { regionName := "Full"
    areas := some { lowRes := some areaL, mediumRes := some areaM
                    highRes := some areaH }
    disputedRegions := none }

/-- A convertible region carrying disputed-region claims. -/
def regionDisp : RegionDev :=
  { regionName := "Disp"
    areas := some { lowRes := none, mediumRes := some areaM, highRes := none }
    disputedRegions := some [disputedEx] }

def wNoHigh : WorldDataDev :=
  { commonTerritories := none, regions := [("aaa", regionGood)] }

def wBad : WorldDataDev :=
  { commonTerritories := none
    regions := [("bad", regionBad), ("bbb", regionGood)] }

def wGoodOnly : WorldDataDev :=
  { commonTerritories := none, regions := [("bbb", regionGood)] }

def wLowOnly : WorldDataDev :=
  { commonTerritories := none, regions := [("aaa", regionLowOnly)] }

def wFull : WorldDataDev :=
  { commonTerritories := none, regions := [("hhh", regionFull)] }

def wDisp : WorldDataDev :=
  { commonTerritories := some [("alias", "ddd")]
    regions := [("ddd", regionDisp)] }

/-- The prod dataset `convertWorldData parseEx fitSizeEx geoPathEx wNoHigh`
evaluates to. -/
def prodNoHigh : WorldDataProd :=
  { width := 1600, height := 900, commonTerritories := none
    regions := [("aaa",
      { regionName := "Good"
        areas := { lowRes := none
                   mediumRes := some { areaSVG := "P POLYGON M" }
                   highRes := none }
        disputedRegions := none })] }

/-- The prod dataset `convertWorldData parseEx fitSizeEx geoPathEx wDisp`
evaluates to. -/
def prodDisp : WorldDataProd :=
  { width := 1600, height := 900
    commonTerritories := some [("alias", "ddd")]
    regions := [("ddd",
      { regionName := "Disp"
        areas := { lowRes := none
                   mediumRes := some { areaSVG := "P POLYGON M" }
                   highRes := none }
        disputedRegions := some [disputedEx] })] }

/-! ### Helper lemmas about association lists and key sorting -/

theorem lookup_eq_some_of_mem {V : Type} {rs : List (String × V)} {k : String}
    {v : V} (hnd : (rs.map Prod.fst).Nodup) (hmem : (k, v) ∈ rs) :
    rs.lookup k = some v := by
  induction rs with
  | nil => cases hmem
  | cons p rest ih =>
    simp only [List.map_cons, List.nodup_cons] at hnd
    rcases List.mem_cons.mp hmem with h | h
    · cases h; simp [List.lookup]
    · have hne : k ≠ p.1 := by
        intro he
        exact hnd.1 (he ▸ List.mem_map_of_mem Prod.fst h)
      simp only [List.lookup, beq_eq_false_iff_ne.mpr hne]
      exact ih hnd.2 h

theorem lookup_isSome_of_mem_keys {V : Type} {rs : List (String × V)}
    {k : String} (h : k ∈ rs.map Prod.fst) : ∃ v, rs.lookup k = some v := by
  induction rs with
  | nil => cases h
  | cons p rest ih =>
    by_cases he : k = p.1
    · exact ⟨p.2, by simp [List.lookup, he]⟩
    · simp only [List.map_cons, List.mem_cons] at h
      rcases h with h | h
      · exact absurd h he
      · obtain ⟨v, hv⟩ := ih h
        exact ⟨v, by simp [List.lookup, beq_eq_false_iff_ne.mpr he, hv]⟩

theorem filterMap_lookup_pairs {V : Type} {rs l : List (String × V)}
    (hnd : (rs.map Prod.fst).Nodup) (hsub : ∀ p ∈ l, p ∈ rs) :
    (l.map Prod.fst).filterMap
        (fun k => (rs.lookup k).map fun v => (k, v)) = l := by
  induction l with
  | nil => rfl
  | cons p rest ih =>
    have hl : rs.lookup p.1 = some p.2 :=
      lookup_eq_some_of_mem hnd (hsub p (List.mem_cons_self p rest))
    simp only [List.map_cons, List.filterMap_cons, hl, Option.map_some]
    exact congrArg _ (ih fun q hq => hsub q (List.mem_cons_of_mem p hq))

theorem map_fst_filterMap_lookup {V : Type} {rs : List (String × V)}
    {ks : List String} (h : ∀ k ∈ ks, k ∈ rs.map Prod.fst) :
    ((ks.filterMap fun k => (rs.lookup k).map fun v => (k, v)).map Prod.fst)
      = ks := by
  induction ks with
  | nil => rfl
  | cons k rest ih =>
    obtain ⟨v, hv⟩ :=
      lookup_isSome_of_mem_keys (h k (List.mem_cons_self k rest))
    simp only [List.filterMap_cons, hv, Option.map_some, List.map_cons]
    exact congrArg _ (ih fun x hx => h x (List.mem_cons_of_mem k hx))

theorem sortKeys_eq_insertionSort (ks : List String) :
    sortKeys ks = List.insertionSort (· ≤ ·) ks := by
  unfold sortKeys
  congr 1

theorem sortKeys_perm (ks : List String) : (sortKeys ks).Perm ks := by
  rw [sortKeys_eq_insertionSort]
  exact List.perm_insertionSort _ _

theorem sortKeys_sorted (ks : List String) : (sortKeys ks).Sorted (· ≤ ·) := by
  rw [sortKeys_eq_insertionSort]
  exact List.sorted_insertionSort _ _

theorem sortKeys_mem {ks : List String} {k : String} :
    k ∈ sortKeys ks ↔ k ∈ ks :=
  (sortKeys_perm ks).mem_iff

theorem sortKeys_of_sorted {ks : List String} (h : ks.Sorted (· ≤ ·)) :
    sortKeys ks = ks := by
  rw [sortKeys_eq_insertionSort]
  exact h.insertionSort_eq

/-! ### Structure lemmas for the converter -/

theorem skipRegion_eq_false_iff (code : String) (r : RegionDev) :
    skipRegion code r = false ↔
      code.length ≤ 3 ∧ ∃ a, r.areas = some a ∧ ∃ m, a.mediumRes = some m := by
  unfold skipRegion
  rcases hA : r.areas with _ | a
  · simp [hA, Option.bind]
  · rcases hM : a.mediumRes with _ | m
    · simp [hA, hM, Option.bind]
    · simp [hA, hM, Option.bind]

section LoopLemmas

variable {Geo : Type} (parse : String → Option Geo)
  (pathGen : Geo → Option String)

theorem convertRegionsLoop_mem_keys {l : List (String × RegionDev)}
    {out : List (String × RegionProd)}
    (h : convertRegionsLoop parse pathGen l = .ok out) (code : String) :
    code ∈ out.map Prod.fst ↔
      ∃ r, (code, r) ∈ l ∧ skipRegion code r = false := by
  induction l generalizing out with
  | nil =>
    cases h
    simp
  | cons p rest ih =>
    obtain ⟨c, r⟩ := p
    by_cases hskip : skipRegion c r = true
    · rw [convertRegionsLoop, if_pos hskip] at h
      rw [ih h]
      constructor
      · rintro ⟨r', hm, hs⟩
        exact ⟨r', List.mem_cons_of_mem _ hm, hs⟩
      · rintro ⟨r', hm, hs⟩
        rcases List.mem_cons.mp hm with he | hm'
        · cases he
          rw [hskip] at hs
          cases hs
        · exact ⟨r', hm', hs⟩
    · rw [convertRegionsLoop, if_neg hskip] at h
      rw [Bool.not_eq_true] at hskip
      cases hc : convertRegionDev parse pathGen r with
      | error e => rw [hc] at h; cases h
      | ok rp =>
        rw [hc] at h
        cases ht : convertRegionsLoop parse pathGen rest with
        | error e => rw [ht] at h; cases h
        | ok tail =>
          rw [ht] at h
          cases h
          rw [List.map_cons]
          constructor
          · intro hmem
            rcases List.mem_cons.mp hmem with he | hm'
            · cases he
              exact ⟨r, List.mem_cons_self _ _, hskip⟩
            · obtain ⟨r', hm, hs⟩ := (ih ht).mp hm'
              exact ⟨r', List.mem_cons_of_mem _ hm, hs⟩
          · rintro ⟨r', hm, hs⟩
            rcases List.mem_cons.mp hm with he | hm'
            · cases he
              exact List.mem_cons_self _ _
            · exact List.mem_cons_of_mem _ ((ih ht).mpr ⟨r', hm', hs⟩)

theorem convertRegionsLoop_ok_of_converts {l : List (String × RegionDev)}
    (h : ∀ code r, (code, r) ∈ l → skipRegion code r = false →
      ∃ rp, convertRegionDev parse pathGen r = .ok rp) :
    ∃ out, convertRegionsLoop parse pathGen l = .ok out := by
  induction l with
  | nil => exact ⟨[], rfl⟩
  | cons p rest ih =>
    obtain ⟨c, r⟩ := p
    obtain ⟨out, hout⟩ := ih fun code r' hm hs =>
      h code r' (List.mem_cons_of_mem _ hm) hs
    by_cases hskip : skipRegion c r = true
    · exact ⟨out, by rw [convertRegionsLoop, if_pos hskip]; exact hout⟩
    · rw [Bool.not_eq_true] at hskip
      obtain ⟨rp, hrp⟩ := h c r (List.mem_cons_self _ _) hskip
      refine ⟨(c, rp) :: out, ?_⟩
      rw [convertRegionsLoop, if_neg (by rw [hskip]; exact Bool.false_ne_true),
        hrp, hout]

theorem convertRegionsLoop_mem_pairs {l : List (String × RegionDev)}
    {out : List (String × RegionProd)}
    (h : convertRegionsLoop parse pathGen l = .ok out) {code : String}
    {rp : RegionProd} (hmem : (code, rp) ∈ out) :
    ∃ r, (code, r) ∈ l ∧ convertRegionDev parse pathGen r = .ok rp := by
  induction l generalizing out with
  | nil =>
    cases h
    cases hmem
  | cons p rest ih =>
    obtain ⟨c, r⟩ := p
    by_cases hskip : skipRegion c r = true
    · rw [convertRegionsLoop, if_pos hskip] at h
      obtain ⟨r', hm, hc⟩ := ih h hmem
      exact ⟨r', List.mem_cons_of_mem _ hm, hc⟩
    · rw [convertRegionsLoop, if_neg hskip] at h
      cases hc : convertRegionDev parse pathGen r with
      | error e => rw [hc] at h; cases h
      | ok rp' =>
        rw [hc] at h
        cases ht : convertRegionsLoop parse pathGen rest with
        | error e => rw [ht] at h; cases h
        | ok tail =>
          rw [ht] at h
          cases h
          rcases List.mem_cons.mp hmem with he | hm'
          · cases he
            exact ⟨r, List.mem_cons_self _ _, hc⟩
          · obtain ⟨r', hm, hc'⟩ := ih ht hm'
            exact ⟨r', List.mem_cons_of_mem _ hm, hc'⟩

end LoopLemmas

theorem convertWorldData_ok_elim {Geo Proj : Type} {parse : String → Option Geo}
    {fitSize : Nat → Nat → List Geo → Proj}
    {geoPath : Proj → Geo → Option String} {w : WorldDataDev}
    {prod : WorldDataProd}
    (h : convertWorldData parse fitSize geoPath w = .ok prod) :
    ∃ out, convertRegionsLoop parse
        (geoPath (initializeGlobalProjection parse fitSize w)) w.regions
        = .ok out
      ∧ prod = { width := WIDTH, height := HEIGHT
                 commonTerritories := w.commonTerritories, regions := out } := by
  simp only [convertWorldData] at h
  cases ht : convertRegionsLoop parse
      (geoPath (initializeGlobalProjection parse fitSize w)) w.regions with
  | error e => rw [ht] at h; cases h
  | ok out => rw [ht] at h; cases h; exact ⟨out, rfl, rfl⟩

theorem convertRegionDev_ok_shape {Geo : Type} {parse : String → Option Geo}
    {pathGen : Geo → Option String} {r : RegionDev} {rp : RegionProd}
    (h : convertRegionDev parse pathGen r = .ok rp) :
    rp.regionName = r.regionName ∧ rp.disputedRegions = r.disputedRegions := by
  unfold convertRegionDev at h
  cases hc : convertAreasDev parse pathGen r.areas with
  | error e => rw [hc] at h; cases h
  | ok ap => rw [hc] at h; cases h; exact ⟨rfl, rfl⟩

theorem convertRegionDev_parse_failure {Geo : Type}
    {parse : String → Option Geo} {pathGen : Geo → Option String}
    {r : RegionDev} {a : AreasDev} {m : AreaDev}
    (ha : r.areas = some a) (hm : a.mediumRes = some m)
    (hp : parse m.areaWKT = none) :
    convertRegionDev parse pathGen r
      = .error (.geometryParseError (jsSubstring m.areaWKT 100)) := by
  simp only [convertRegionDev, convertAreasDev, convertAreaDev,
    convertWKTToSVG, ha, hm, hp]

theorem convertRegionsLoop_error_head {Geo : Type}
    (parse : String → Option Geo) (pathGen : Geo → Option String)
    {l₁ : List (String × RegionDev)} {code : String} {r : RegionDev}
    {l₂ : List (String × RegionDev)} {e : ConvError}
    (hskips : ∀ p ∈ l₁, skipRegion p.1 p.2 = true)
    (hns : skipRegion code r = false)
    (herr : convertRegionDev parse pathGen r = .error e) :
    convertRegionsLoop parse pathGen (l₁ ++ (code, r) :: l₂) = .error e := by
  induction l₁ with
  | nil =>
    rw [List.nil_append, convertRegionsLoop,
      if_neg (by rw [hns]; exact Bool.false_ne_true), herr]
  | cons p rest ih =>
    obtain ⟨c, r'⟩ := p
    rw [List.cons_append, convertRegionsLoop,
      if_pos (hskips _ (List.mem_cons_self _ _))]
    exact ih fun q hq => hskips q (List.mem_cons_of_mem _ hq)

/-- Decomposition of `sortedRegions`: the output is the sorted 3-character
block followed by the sorted block of the remaining keys; each block is a
permutation of the corresponding filter of the input pairs and each block's
keys are sorted. -/
theorem sortedRegions_decomp {V : Type} (rs : List (String × V))
    (hnd : (rs.map Prod.fst).Nodup) :
    sortedRegions rs =
      (sortKeys ((rs.map Prod.fst).filter fun k => k.length == 3)).filterMap
          (fun k => (rs.lookup k).map fun v => (k, v))
        ++ (sortKeys ((rs.map Prod.fst).filter fun k =>
              !(k.length == 3))).filterMap
          (fun k => (rs.lookup k).map fun v => (k, v))
      ∧ ((sortKeys ((rs.map Prod.fst).filter fun k =>
            k.length == 3)).filterMap
          (fun k => (rs.lookup k).map fun v => (k, v))).Perm
          (rs.filter fun p => p.1.length == 3)
      ∧ ((sortKeys ((rs.map Prod.fst).filter fun k =>
            !(k.length == 3))).filterMap
          (fun k => (rs.lookup k).map fun v => (k, v))).Perm
          (rs.filter fun p => !(p.1.length == 3))
      ∧ (((sortKeys ((rs.map Prod.fst).filter fun k =>
            k.length == 3)).filterMap
          (fun k => (rs.lookup k).map fun v => (k, v))).map Prod.fst).Sorted
          (· ≤ ·)
      ∧ (((sortKeys ((rs.map Prod.fst).filter fun k =>
            !(k.length == 3))).filterMap
          (fun k => (rs.lookup k).map fun v => (k, v))).map Prod.fst).Sorted
          (· ≤ ·) := by
  have hperm : ∀ q : String → Bool,
      ((sortKeys ((rs.map Prod.fst).filter q)).filterMap
          (fun k => (rs.lookup k).map fun v => (k, v))).Perm
        (rs.filter fun p => q p.1) := by
    intro q
    have h1 : ((sortKeys ((rs.map Prod.fst).filter q)).filterMap
        (fun k => (rs.lookup k).map fun v => (k, v))).Perm
        ((((rs.map Prod.fst).filter q)).filterMap
          (fun k => (rs.lookup k).map fun v => (k, v))) :=
      (sortKeys_perm _).filterMap _
    have h2 : (rs.map Prod.fst).filter q
        = (rs.filter fun p => q p.1).map Prod.fst := by
      rw [List.filter_map]
      rfl
    have h3 : (((rs.filter fun p => q p.1).map Prod.fst).filterMap
        (fun k => (rs.lookup k).map fun v => (k, v)))
        = rs.filter fun p => q p.1 :=
      filterMap_lookup_pairs hnd fun p hp => List.mem_of_mem_filter hp
    exact h1.trans (by rw [h2, h3])
  have hsorted : ∀ q : String → Bool,
      (((sortKeys ((rs.map Prod.fst).filter q)).filterMap
          (fun k => (rs.lookup k).map fun v => (k, v))).map Prod.fst).Sorted
        (· ≤ ·) := by
    intro q
    have hk : ∀ k ∈ sortKeys ((rs.map Prod.fst).filter q),
        k ∈ rs.map Prod.fst := by
      intro k hk
      exact List.mem_of_mem_filter (sortKeys_mem.mp hk)
    rw [map_fst_filterMap_lookup hk]
    exact sortKeys_sorted _
  refine ⟨?_, hperm _, hperm _, hsorted _, hsorted _⟩
  simp only [sortedRegions, List.filterMap_append]


/-! ### The claims -/

/-- C1: for every input dev dataset (with unique region codes) and every
region code in it, `convertWorldData` includes that region in the output if
and only if the code has at most 3 characters, the region has an `areas`
field, and the areas contain a `medium-res` entry; and regions failing this
predicate are skipped without error (only regions passing it can make the
conversion fail). -/
theorem convertWorldData_inclusion {Geo Proj : Type}
    (parse : String → Option Geo) (fitSize : Nat → Nat → List Geo → Proj)
    (geoPath : Proj → Geo → Option String) (w : WorldDataDev) :
    (∀ prod, convertWorldData parse fitSize geoPath w = .ok prod →
      (w.regions.map Prod.fst).Nodup →
      ∀ code r, (code, r) ∈ w.regions →
        (code ∈ prod.regions.map Prod.fst ↔
          code.length ≤ 3 ∧ ∃ a, r.areas = some a ∧
            ∃ m, a.mediumRes = some m)) ∧
    ((∀ code r, (code, r) ∈ w.regions → skipRegion code r = false →
        ∃ rp, convertRegionDev parse
          (geoPath (initializeGlobalProjection parse fitSize w)) r
          = .ok rp) →
      ∃ prod, convertWorldData parse fitSize geoPath w = .ok prod) := by
  constructor
  · intro prod h hnd code r hmem
    obtain ⟨out, hloop, hprod⟩ := convertWorldData_ok_elim h
    subst hprod
    rw [← skipRegion_eq_false_iff]
    constructor
    · intro hin
      obtain ⟨r', hm', hs'⟩ :=
        (convertRegionsLoop_mem_keys _ _ hloop code).mp hin
      have h1 := lookup_eq_some_of_mem hnd hm'
      have h2 := lookup_eq_some_of_mem hnd hmem
      rw [h1] at h2
      cases h2
      exact hs'
    · intro hs
      exact (convertRegionsLoop_mem_keys _ _ hloop code).mpr ⟨r, hmem, hs⟩
  · intro hconv
    obtain ⟨out, hloop⟩ :=
      convertRegionsLoop_ok_of_converts _ _ fun code r hm hs =>
        hconv code r hm hs
    refine ⟨{ width := WIDTH, height := HEIGHT
              commonTerritories := w.commonTerritories, regions := out }, ?_⟩
    simp only [convertWorldData]
    rw [hloop]

theorem convertWorldData_inclusion_witness :
    (("aaa" ∈ prodNoHigh.regions.map Prod.fst) ↔
      ("aaa".length ≤ 3 ∧ ∃ a, regionGood.areas = some a ∧
        ∃ m, a.mediumRes = some m)) ∧
    ∃ prod, convertWorldData parseEx fitSizeEx geoPathEx wNoHigh
      = .ok prod :=
  ⟨(convertWorldData_inclusion parseEx fitSizeEx geoPathEx wNoHigh).1
      prodNoHigh rfl (by decide) "aaa" regionGood (by decide),
   (convertWorldData_inclusion parseEx fitSizeEx geoPathEx wNoHigh).2
      (by
        intro code r hm hs
        rcases List.mem_cons.mp hm with he | he
        · cases he
          exact ⟨_, rfl⟩
        · cases he)⟩

/-- C2 (amended): if no region supplies a high-resolution geometry,
`initializeGlobalProjection` signals no error at all — it fits the global
projection to an empty feature collection and the run continues (there is
no `EmptyExtentError` in the code). -/
theorem initializeGlobalProjection_noHighRes_noError {Geo Proj : Type}
    (parse : String → Option Geo) (fitSize : Nat → Nat → List Geo → Proj)
    (w : WorldDataDev)
    (h : ∀ p ∈ w.regions, (p.2.areas.bind AreasDev.highRes) = none) :
    initializeGlobalProjection parse fitSize w = fitSize WIDTH HEIGHT [] := by
  unfold initializeGlobalProjection
  congr 1
  unfold collectHighResFeatures
  apply List.filterMap_eq_nil_iff.mpr
  intro p hp
  have hb := h p hp
  rcases hA : p.2.areas with _ | a
  · rfl
  · rw [hA] at hb
    simp only [Option.bind] at hb
    simp [hb]

theorem initializeGlobalProjection_noHighRes_noError_witness :
    initializeGlobalProjection parseEx fitSizeEx wNoHigh
      = fitSizeEx WIDTH HEIGHT [] :=
  initializeGlobalProjection_noHighRes_noError parseEx fitSizeEx wNoHigh
    (by decide)

/-- C2 counterexample: on a dataset with no high-resolution geometry
anywhere the converter signals no fatal error: the feature collection is
empty, yet the whole conversion completes and the region is processed. -/
theorem emptyExtentError_cex :
    collectHighResFeatures parseEx wNoHigh = [] ∧
    convertWorldData parseEx fitSizeEx geoPathEx wNoHigh = .ok prodNoHigh :=
  ⟨rfl, rfl⟩

/-- C3 (amended): a geometry parse failure on the medium-res text of a
surviving region (one the skip test lets through) aborts the whole batch:
`convertWorldData` returns the labeled `GeometryParseError` and no
further region is converted. -/
theorem convertWorldData_parseFailure_aborts {Geo Proj : Type}
    (parse : String → Option Geo) (fitSize : Nat → Nat → List Geo → Proj)
    (geoPath : Proj → Geo → Option String) (w : WorldDataDev)
    (pre : List (String × RegionDev)) (code : String) (r : RegionDev)
    (post : List (String × RegionDev)) (a : AreasDev) (m : AreaDev)
    (hw : w.regions = pre ++ (code, r) :: post)
    (hskips : ∀ p ∈ pre, skipRegion p.1 p.2 = true)
    (hns : skipRegion code r = false)
    (ha : r.areas = some a) (hm : a.mediumRes = some m)
    (hparse : parse m.areaWKT = none) :
    convertWorldData parse fitSize geoPath w
      = .error (.geometryParseError (jsSubstring m.areaWKT 100)) := by
  have herr : convertRegionDev parse
      (geoPath (initializeGlobalProjection parse fitSize w)) r
      = .error (.geometryParseError (jsSubstring m.areaWKT 100)) :=
    convertRegionDev_parse_failure ha hm hparse
  have hloop : convertRegionsLoop parse
      (geoPath (initializeGlobalProjection parse fitSize w))
      (pre ++ (code, r) :: post)
      = .error (.geometryParseError (jsSubstring m.areaWKT 100)) :=
    convertRegionsLoop_error_head parse
      (geoPath (initializeGlobalProjection parse fitSize w)) hskips hns herr
  simp only [convertWorldData]
  rw [hw, hloop]

theorem convertWorldData_parseFailure_aborts_witness :
    convertWorldData parseEx fitSizeEx geoPathEx wBad
      = .error (.geometryParseError "BAD") :=
  convertWorldData_parseFailure_aborts parseEx fitSizeEx geoPathEx wBad
    [] "bad" regionBad [("bbb", regionGood)]
    { lowRes := none, mediumRes := some areaBad, highRes := none } areaBad
    rfl (by intro p hp; cases hp) (by decide) rfl rfl rfl

/-- C3 counterexample: in `wBad` the first region's medium-res WKT fails to
parse while the second region is perfectly convertible (as the second
conjunct shows); yet the whole batch aborts with an error instead of
skipping the bad region and converting the rest. -/
theorem parseFailure_localized_cex :
    convertWorldData parseEx fitSizeEx geoPathEx wBad
      = .error (.geometryParseError "BAD") ∧
    convertWorldData parseEx fitSizeEx geoPathEx wGoodOnly
      = .ok { width := 1600, height := 900, commonTerritories := none
              regions := [("bbb",
                { regionName := "Good"
                  areas := { lowRes := none
                             mediumRes := some { areaSVG := "P POLYGON M" }
                             highRes := none }
                  disputedRegions := none })] } :=
  ⟨rfl, rfl⟩

/-- C4: `convertWKTToSVG` signals `GeometryParseError` naming the offending
text (truncated to 100 characters) exactly when parsing fails, signals
`EmptyPathError` exactly when the parsed geometry yields no drawable path
(a falsy path: `null` or empty), and otherwise returns the path string. -/
theorem convertWKTToSVG_spec {Geo : Type} (parse : String → Option Geo)
    (pathGen : Geo → Option String) (wkt : String) :
    (parse wkt = none →
      convertWKTToSVG parse pathGen wkt
        = .error (.geometryParseError (jsSubstring wkt 100))) ∧
    (∀ g, parse wkt = some g → (pathGen g = none ∨ pathGen g = some "") →
      convertWKTToSVG parse pathGen wkt
        = .error (.emptyPathError (jsSubstring wkt 100))) ∧
    (∀ g s, parse wkt = some g → pathGen g = some s → s ≠ "" →
      convertWKTToSVG parse pathGen wkt = .ok s) := by
  refine ⟨?_, ?_, ?_⟩
  · intro h
    simp [convertWKTToSVG, h]
  · rintro g hg (h | h)
    · simp [convertWKTToSVG, hg, h]
    · simp [convertWKTToSVG, hg, h]
  · intro g s hg hs hne
    simp [convertWKTToSVG, hg, hs, hne]

theorem convertWKTToSVG_spec_witness :
    convertWKTToSVG (fun _ => (none : Option String)) (fun g => some g) "BAD"
      = .error (.geometryParseError "BAD") ∧
    convertWKTToSVG (fun s => some s) (fun _ => (none : Option String)) "W"
      = .error (.emptyPathError "W") ∧
    convertWKTToSVG (fun s => some s)
      (fun g => some (String.append "P " g)) "W" = .ok "P W" :=
  ⟨(convertWKTToSVG_spec _ _ _).1 rfl,
   (convertWKTToSVG_spec _ _ _).2.1 "W" rfl (Or.inl rfl),
   (convertWKTToSVG_spec _ _ _).2.2 "W" "P W" rfl rfl (by decide)⟩

/-- C5 (amended): the resolution-stripping step replaces the areas of every
region that has a `high-res` entry by an object holding just that entry;
but a region without a `high-res` entry (or without `areas`) is left
completely unchanged — its `low-res`/`medium-res` areas are retained. -/
theorem stripToHighRes_spec (w : WorldDataDev) (code : String)
    (r : RegionDev) (hmem : (code, r) ∈ w.regions) :
    (∀ a hr, r.areas = some a → a.highRes = some hr →
      (code, { regionName := r.regionName
               areas := some { lowRes := none, mediumRes := none
                               highRes := some hr }
               disputedRegions := r.disputedRegions })
        ∈ (stripToHighRes w).regions) ∧
    ((r.areas.bind AreasDev.highRes) = none →
      (code, r) ∈ (stripToHighRes w).regions) := by
  have hmap : ∀ s : RegionDev, stripRegionAreas r = s →
      (code, s) ∈ (stripToHighRes w).regions := by
    intro s hs
    have h1 : (code, stripRegionAreas r) ∈ (stripToHighRes w).regions :=
      List.mem_map_of_mem
        (fun p : String × RegionDev => (p.1, stripRegionAreas p.2)) hmem
    rw [hs] at h1
    exact h1
  constructor
  · intro a hr ha hh
    apply hmap
    simp [stripRegionAreas, ha, hh]
  · intro hnone
    apply hmap
    rcases hA : r.areas with _ | a
    · simp [stripRegionAreas, hA]
    · rw [hA] at hnone
      simp only [Option.bind] at hnone
      simp [stripRegionAreas, hA, hnone]

theorem stripToHighRes_spec_witness :
    (∀ a hr, regionFull.areas = some a → a.highRes = some hr →
      ("hhh", { regionName := regionFull.regionName
                areas := some { lowRes := none, mediumRes := none
                                highRes := some hr }
                disputedRegions := regionFull.disputedRegions })
        ∈ (stripToHighRes wFull).regions) ∧
    ((regionFull.areas.bind AreasDev.highRes) = none →
      ("hhh", regionFull) ∈ (stripToHighRes wFull).regions) :=
  stripToHighRes_spec wFull "hhh" regionFull (by decide)

/-- C5 counterexample: a region carrying only a `low-res` area is left
untouched by the stripping step — the derived dataset still contains its
`low-res` area instead of dropping it. -/
theorem stripToHighRes_lowRes_cex :
    stripToHighRes wLowOnly = wLowOnly ∧
    regionLowOnly.areas
      = some { lowRes := some areaL, mediumRes := none, highRes := none } :=
  ⟨rfl, rfl⟩

/-- C6: for every surviving region `convertWorldData` emits a prod region
with the input's `regionName` and `disputedRegions` passed through
unmodified; the top-level `commonTerritories` is passed through unmodified,
and the output is stamped with width 1600 and height 900. -/
theorem convertWorldData_passthrough {Geo Proj : Type}
    (parse : String → Option Geo) (fitSize : Nat → Nat → List Geo → Proj)
    (geoPath : Proj → Geo → Option String) (w : WorldDataDev)
    (prod : WorldDataProd)
    (h : convertWorldData parse fitSize geoPath w = .ok prod) :
    prod.width = 1600 ∧ prod.height = 900 ∧
    prod.commonTerritories = w.commonTerritories ∧
    ∀ code rp, (code, rp) ∈ prod.regions →
      ∃ r, (code, r) ∈ w.regions ∧ rp.regionName = r.regionName ∧
        rp.disputedRegions = r.disputedRegions := by
  obtain ⟨out, hloop, hprod⟩ := convertWorldData_ok_elim h
  subst hprod
  refine ⟨rfl, rfl, rfl, ?_⟩
  intro code rp hmem
  obtain ⟨r, hm, hc⟩ := convertRegionsLoop_mem_pairs _ _ hloop hmem
  obtain ⟨h1, h2⟩ := convertRegionDev_ok_shape hc
  exact ⟨r, hm, h1, h2⟩

theorem convertWorldData_passthrough_witness :
    prodDisp.width = 1600 ∧ prodDisp.height = 900 ∧
    prodDisp.commonTerritories = wDisp.commonTerritories ∧
    ∀ code rp, (code, rp) ∈ prodDisp.regions →
      ∃ r, (code, r) ∈ wDisp.regions ∧ rp.regionName = r.regionName ∧
        rp.disputedRegions = r.disputedRegions :=
  convertWorldData_passthrough parseEx fitSizeEx geoPathEx wDisp prodDisp
    rfl

/-- C7: on a regions mapping with unique keys, all of length at least 3
(the data-model invariant for region codes), the key-sorting step returns
the same key-value pairs reordered as the alphabetically sorted 3-character
keys followed by the alphabetically sorted longer keys; in particular the
example mapping with keys usa, california, can, texas, gbr is reordered to
can, gbr, usa, california, texas. -/
theorem sortedRegions_partition :
    (∀ (V : Type) (rs : List (String × V)),
        (rs.map Prod.fst).Nodup →
        (∀ k ∈ rs.map Prod.fst, 3 ≤ k.length) →
        (sortedRegions rs).Perm rs ∧
        ∃ a b, sortedRegions rs = a ++ b
          ∧ a.Perm (rs.filter fun p => p.1.length == 3)
          ∧ b.Perm (rs.filter fun p => decide (3 < p.1.length))
          ∧ (a.map Prod.fst).Sorted (· ≤ ·)
          ∧ (b.map Prod.fst).Sorted (· ≤ ·)) ∧
    sortedRegions [("usa", 0), ("california", 1), ("can", 2), ("texas", 3),
        ("gbr", 4)]
      = [("can", 2), ("gbr", 4), ("usa", 0), ("california", 1),
        ("texas", 3)] := by
  constructor
  · intro V rs hnd hlen
    obtain ⟨heq, hpa, hpb, hsa, hsb⟩ := sortedRegions_decomp rs hnd
    have hfilter : (rs.filter fun p => !(p.1.length == 3))
        = rs.filter fun p => decide (3 < p.1.length) := by
      apply List.filter_congr
      intro p hp
      have h3 := hlen p.1 (List.mem_map_of_mem Prod.fst hp)
      rcases Nat.eq_or_lt_of_le h3 with h | h
      · rw [← h]
        rfl
      · simp [Nat.ne_of_gt h, h]
    refine ⟨?_, _, _, heq, hpa, hfilter ▸ hpb, hsa, hsb⟩
    rw [heq]
    exact (hpa.append hpb).trans (List.filter_append_perm _ rs)
  · decide

theorem sortedRegions_partition_witness :
    (sortedRegions [("usa", 0), ("california", 1), ("can", 2), ("texas", 3),
        ("gbr", 4)]).Perm
      [("usa", 0), ("california", 1), ("can", 2), ("texas", 3),
        ("gbr", 4)] ∧
    ∃ a b,
      sortedRegions [("usa", 0), ("california", 1), ("can", 2), ("texas", 3),
          ("gbr", 4)] = a ++ b
      ∧ a.Perm ([("usa", 0), ("california", 1), ("can", 2), ("texas", 3),
          ("gbr", 4)].filter fun p => p.1.length == 3)
      ∧ b.Perm ([("usa", 0), ("california", 1), ("can", 2), ("texas", 3),
          ("gbr", 4)].filter fun p => decide (3 < p.1.length))
      ∧ (a.map Prod.fst).Sorted (· ≤ ·)
      ∧ (b.map Prod.fst).Sorted (· ≤ ·) :=
  sortedRegions_partition.1 Nat
    [("usa", 0), ("california", 1), ("can", 2), ("texas", 3), ("gbr", 4)]
    (by decide) (by decide)

/-- C8: the key-sorting step is idempotent on mappings with unique keys:
sorting an already-sorted mapping returns the very same mapping (same keys,
same order, same values). -/
theorem sortedRegions_idempotent {V : Type} (rs : List (String × V))
    (hnd : (rs.map Prod.fst).Nodup) :
    sortedRegions (sortedRegions rs) = sortedRegions rs := by
  have hsub : ∀ k ∈ sortKeys ((rs.map Prod.fst).filter fun k =>
      k.length == 3) ++ sortKeys ((rs.map Prod.fst).filter fun k =>
      !(k.length == 3)), k ∈ rs.map Prod.fst := by
    intro k hk
    rcases List.mem_append.mp hk with h | h
    · exact List.mem_of_mem_filter (sortKeys_mem.mp h)
    · exact List.mem_of_mem_filter (sortKeys_mem.mp h)
  have hmap : (sortedRegions rs).map Prod.fst
      = sortKeys ((rs.map Prod.fst).filter fun k => k.length == 3)
        ++ sortKeys ((rs.map Prod.fst).filter fun k => !(k.length == 3)) :=
    map_fst_filterMap_lookup hsub
  have hndst : (sortKeys ((rs.map Prod.fst).filter fun k =>
      k.length == 3)).Nodup :=
    (sortKeys_perm _).nodup_iff.mpr (hnd.filter _)
  have hndsl : (sortKeys ((rs.map Prod.fst).filter fun k =>
      !(k.length == 3))).Nodup :=
    (sortKeys_perm _).nodup_iff.mpr (hnd.filter _)
  have hdisj : List.Disjoint
      (sortKeys ((rs.map Prod.fst).filter fun k => k.length == 3))
      (sortKeys ((rs.map Prod.fst).filter fun k => !(k.length == 3))) := by
    intro k h1 h2
    have p1 := (List.mem_filter.mp (sortKeys_mem.mp h1)).2
    have p2 := (List.mem_filter.mp (sortKeys_mem.mp h2)).2
    rw [p1] at p2
    cases p2
  have hnd_out : ((sortedRegions rs).map Prod.fst).Nodup := by
    rw [hmap]
    exact hndst.append hndsl hdisj
  have e1 : (sortKeys ((rs.map Prod.fst).filter fun k =>
      k.length == 3)).filter (fun k => k.length == 3)
      = sortKeys ((rs.map Prod.fst).filter fun k => k.length == 3) :=
    List.filter_eq_self.mpr
      fun k hk => (List.mem_filter.mp (sortKeys_mem.mp hk)).2
  have e2 : (sortKeys ((rs.map Prod.fst).filter fun k =>
      !(k.length == 3))).filter (fun k => k.length == 3) = [] :=
    List.filter_eq_nil_iff.mpr fun k hk hp => by
      have p2 := (List.mem_filter.mp (sortKeys_mem.mp hk)).2
      rw [hp] at p2
      cases p2
  have e3 : (sortKeys ((rs.map Prod.fst).filter fun k =>
      k.length == 3)).filter (fun k => !(k.length == 3)) = [] :=
    List.filter_eq_nil_iff.mpr fun k hk hp => by
      have p1 := (List.mem_filter.mp (sortKeys_mem.mp hk)).2
      rw [p1] at hp
      cases hp
  have e4 : (sortKeys ((rs.map Prod.fst).filter fun k =>
      !(k.length == 3))).filter (fun k => !(k.length == 3))
      = sortKeys ((rs.map Prod.fst).filter fun k => !(k.length == 3)) :=
    List.filter_eq_self.mpr
      fun k hk => (List.mem_filter.mp (sortKeys_mem.mp hk)).2
  have hfilt1 : (((sortedRegions rs).map Prod.fst).filter fun k =>
      k.length == 3)
      = sortKeys ((rs.map Prod.fst).filter fun k => k.length == 3) := by
    rw [hmap, List.filter_append, e1, e2, List.append_nil]
  have hfilt2 : (((sortedRegions rs).map Prod.fst).filter fun k =>
      !(k.length == 3))
      = sortKeys ((rs.map Prod.fst).filter fun k => !(k.length == 3)) := by
    rw [hmap, List.filter_append, e3, e4, List.nil_append]
  have hout2 : sortedRegions (sortedRegions rs)
      = (sortKeys (((sortedRegions rs).map Prod.fst).filter fun k =>
          k.length == 3)
        ++ sortKeys (((sortedRegions rs).map Prod.fst).filter fun k =>
          !(k.length == 3))).filterMap
        (fun k => ((sortedRegions rs).lookup k).map fun v => (k, v)) := rfl
  rw [hout2, hfilt1, hfilt2,
    sortKeys_of_sorted (sortKeys_sorted _),
    sortKeys_of_sorted (sortKeys_sorted _), ← hmap]
  exact filterMap_lookup_pairs hnd_out fun p hp => hp

theorem sortedRegions_idempotent_witness :
    sortedRegions (sortedRegions [("usa", 0), ("california", 1), ("can", 2),
        ("texas", 3), ("gbr", 4)])
      = sortedRegions [("usa", 0), ("california", 1), ("can", 2),
        ("texas", 3), ("gbr", 4)] :=
  sortedRegions_idempotent
    [("usa", 0), ("california", 1), ("can", 2), ("texas", 3), ("gbr", 4)]
    (by decide)

/-- C9: `convertWKTToSVG` is deterministic — with the projection (path
generator) and parser fixed, two calls on the same WKT text that return
path strings return the same path string. -/
theorem convertWKTToSVG_deterministic {Geo : Type}
    (parse : String → Option Geo) (pathGen : Geo → Option String)
    (wkt s₁ s₂ : String)
    (h₁ : convertWKTToSVG parse pathGen wkt = .ok s₁)
    (h₂ : convertWKTToSVG parse pathGen wkt = .ok s₂) : s₁ = s₂ := by
  rw [h₁] at h₂
  cases h₂
  rfl

theorem convertWKTToSVG_deterministic_witness : ("P W" : String) = "P W" :=
  convertWKTToSVG_deterministic (fun s => some s)
    (fun g => some (String.append "P " g)) "W" "P W" "P W" rfl rfl

/-- C10: the key-sorting step partitions by the test `key.length === 3`,
not `length <= 3`: every key shorter than 3 characters lands in the same
group as the longer keys, placed after all 3-character keys and sorted
alphabetically among them. -/
theorem sortedRegions_shortKeys_grouped {V : Type} (rs : List (String × V))
    (hnd : (rs.map Prod.fst).Nodup) :
    ∃ a b, sortedRegions rs = a ++ b
      ∧ a.Perm (rs.filter fun p => p.1.length == 3)
      ∧ b.Perm (rs.filter fun p => !(p.1.length == 3))
      ∧ (b.map Prod.fst).Sorted (· ≤ ·)
      ∧ ∀ p ∈ rs, p.1.length < 3 → p ∈ b := by
  obtain ⟨heq, hpa, hpb, hsa, hsb⟩ := sortedRegions_decomp rs hnd
  refine ⟨_, _, heq, hpa, hpb, hsb, ?_⟩
  intro p hp hlt
  apply hpb.mem_iff.mpr
  apply List.mem_filter.mpr
  refine ⟨hp, ?_⟩
  have hne : p.1.length ≠ 3 := Nat.ne_of_lt hlt
  simp [hne]

theorem sortedRegions_shortKeys_grouped_witness :
    ∃ a b, sortedRegions [("usa", 0), ("ab", 1), ("can", 2)] = a ++ b
      ∧ a.Perm ([("usa", 0), ("ab", 1), ("can", 2)].filter fun p =>
          p.1.length == 3)
      ∧ b.Perm ([("usa", 0), ("ab", 1), ("can", 2)].filter fun p =>
          !(p.1.length == 3))
      ∧ (b.map Prod.fst).Sorted (· ≤ ·)
      ∧ ∀ p ∈ [("usa", 0), ("ab", 1), ("can", 2)], p.1.length < 3 →
          p ∈ b :=
  sortedRegions_shortKeys_grouped [("usa", 0), ("ab", 1), ("can", 2)]
    (by decide)

end UGIM
